import Mathlib

/-!
Verification of the RAG (document-grounded chat) subsystem of
`backend/ai_chat_routes.py` of the HR-App-lumina repository against its
natural-language specification.

The Python module is shallowly embedded: pure helpers become Lean
functions; the FastAPI handlers become explicit state-passing functions
over an `AppState` record holding the MongoDB collections and the
per-tenant Qdrant collections; the external collaborators (text
extraction, the sentence-transformers embedding model, Qdrant writes,
the Groq LLM) are modelled as `Except`-valued oracle outcomes supplied
as arguments.  Machine floats (similarity scores, embedding vector
components) are modelled as exact rationals.
-/

/-- `EMBEDDING_DIM` from `ai_chat_routes.py` (all-MiniLM-L6-v2, 384). -/
def EMBEDDING_DIM : Nat := 384

/-- A `DecidableEq` instance for `Except`, so concrete runs of the
embedded fallible functions can be checked by `decide`. -/
instance exceptDecEq {ε α : Type} [DecidableEq ε] [DecidableEq α] :
    DecidableEq (Except ε α) := fun x y =>
  match x, y with
  | Except.ok a, Except.ok b =>
    if h : a = b then isTrue (h ▸ rfl)
    else isFalse (fun he => h (by injection he))
  | Except.error a, Except.error b =>
    if h : a = b then isTrue (h ▸ rfl)
    else isFalse (fun he => h (by injection he))
  | Except.ok _, Except.error _ => isFalse (fun he => Except.noConfusion he)
  | Except.error _, Except.ok _ => isFalse (fun he => Except.noConfusion he)

/-- Helper for `pyWords`: scan the character list, accumulating the
current word (reversed) in `acc`; whitespace flushes the accumulator. -/
def wordsAux : List Char → List Char → List String
  | [], acc => if acc = [] then [] else [String.mk acc.reverse]
  | c :: cs, acc =>
    if c.isWhitespace then
      if acc = [] then wordsAux cs []
      else String.mk acc.reverse :: wordsAux cs []
    else wordsAux cs (c :: acc)

/-- Python `str.split()` with no arguments: split on whitespace runs,
dropping empty pieces. -/
def pyWords (s : String) : List String :=
  wordsAux s.data []

/-- Python `sep.join(pieces)`. -/
def pyJoin (sep : String) : List String → String
  | [] => ""
  | [w] => w
  | w :: ws => w ++ sep ++ pyJoin sep ws

/-- The elements of Python `range(0, n, step)` for a positive `step`:
`0, step, 2*step, ...` while `< n`.  These are the chunk start indices
of `chunk_text`'s loop, advancing by `step = chunk_size - overlap`. -/
def chunkStarts (n step : Nat) : List Nat :=
  (List.range ((n + step - 1) / step)).map (fun k => k * step)

/-- `chunk_text` from `backend/ai_chat_routes.py`.

The Python body runs `for i in range(0, len(words), chunk_size - overlap)`.
When `chunk_size - overlap` is zero, Python's `range` raises
`ValueError` (modelled as `Except.error`); when it is negative,
`range(0, n, negative_step)` is empty, so the loop body never runs and
the function returns `[]`.  The `if chunk:` test before `append` is the
trailing `filter`. -/
def chunk_text (text : String) (chunk_size : Nat) (overlap : Nat) :
    Except String (List String) :=
  if text = "" then Except.ok []
  else
    let words := pyWords text
    if chunk_size = overlap then
      Except.error "range() arg 3 must not be zero"
    else if chunk_size < overlap then
      Except.ok []
    else
      Except.ok (((chunkStarts words.length (chunk_size - overlap)).map
        (fun i => pyJoin " " ((words.drop i).take chunk_size))).filter
          (fun c => c != ""))

theorem wordsAux_ne_empty (l : List Char) :
    ∀ acc, ∀ w ∈ wordsAux l acc, w ≠ "" := by
  induction l with
  | nil =>
    intro acc w hw
    unfold wordsAux at hw
    split at hw
    · exact absurd hw (List.not_mem_nil w)
    · next hacc =>
      rw [List.mem_singleton] at hw
      subst hw
      intro hEq
      apply hacc
      have hrev : acc.reverse = [] := congrArg String.data hEq
      simpa using hrev
  | cons c cs ih =>
    intro acc w hw
    unfold wordsAux at hw
    split at hw
    · split at hw
      · exact ih [] w hw
      · next hacc =>
        rw [List.mem_cons] at hw
        rcases hw with hw | hw
        · subst hw
          intro hEq
          apply hacc
          have hrev : acc.reverse = [] := congrArg String.data hEq
          simpa using hrev
        · exact ih [] w hw
    · exact ih (c :: acc) w hw

theorem pyWords_ne_empty (s : String) : ∀ w ∈ pyWords s, w ≠ "" :=
  wordsAux_ne_empty s.data []

theorem mem_chunkStarts {n step i : Nat} :
    i ∈ chunkStarts n step ↔ ∃ k, k < (n + step - 1) / step ∧ i = k * step := by
  simp only [chunkStarts, List.mem_map, List.mem_range]
  constructor
  · rintro ⟨k, hk, rfl⟩; exact ⟨k, hk, rfl⟩
  · rintro ⟨k, hk, rfl⟩; exact ⟨k, hk, rfl⟩

theorem chunkStarts_lt {n step i : Nat} (hstep : 0 < step)
    (hi : i ∈ chunkStarts n step) : i < n := by
  rw [mem_chunkStarts] at hi
  obtain ⟨k, hk, rfl⟩ := hi
  have h1 : (k + 1) * step ≤ ((n + step - 1) / step) * step :=
    Nat.mul_le_mul_right step hk
  rw [Nat.add_mul, Nat.one_mul] at h1
  have h2 : ((n + step - 1) / step) * step ≤ n + step - 1 :=
    Nat.div_mul_le_self _ _
  have key : ∀ a b : Nat, a + step ≤ b → b ≤ n + step - 1 → a < n := by
    intro a b ha hb
    omega
  exact key _ _ h1 h2

theorem chunkStarts_cover {n step : Nat} (j : Nat) (hstep : 0 < step)
    (hj : j < n) :
    ∃ i ∈ chunkStarts n step, i ≤ j ∧ j < i + step := by
  refine ⟨j / step * step, ?_, Nat.div_mul_le_self j step, ?_⟩
  · rw [mem_chunkStarts]
    refine ⟨j / step, ?_, rfl⟩
    have h1 : (n - 1) + step = n + step - 1 := by omega
    have h2 : ((n - 1) + step) / step = (n - 1) / step + 1 :=
      Nat.add_div_right _ hstep
    rw [← h1, h2, Nat.lt_succ_iff]
    exact Nat.div_le_div_right (by omega)
  · have h1 : j / step * step + j % step = j := Nat.div_add_mod' j step
    have h2 : j % step < step := Nat.mod_lt j hstep
    have key : ∀ a m : Nat, a + m = j → m < step → j < a + step := by
      intro a m ha hm
      omega
    exact key _ _ h1 h2

theorem chunkStarts_zero {step : Nat} (hstep : 0 < step) :
    chunkStarts 0 step = [] := by
  unfold chunkStarts
  rw [Nat.zero_add, Nat.div_eq_of_lt (by omega)]
  rfl

theorem pyJoin_ne_empty (sep : String) (l : List String) (hl : l ≠ [])
    (h : ∀ w ∈ l, w ≠ "") : pyJoin sep l ≠ "" := by
  match l with
  | [] => exact absurd rfl hl
  | [w] => exact h w (by simp)
  | w :: x :: t =>
    have hw : w ≠ "" := h w (by simp)
    intro hEq
    apply hw
    have hlen : (w ++ sep ++ pyJoin sep (x :: t)).length = 0 := by
      rw [show pyJoin sep (w :: x :: t) = w ++ sep ++ pyJoin sep (x :: t) from rfl] at hEq
      rw [hEq]
      rfl
    rw [String.length_append, String.length_append] at hlen
    have : w.length = 0 := by omega
    cases w with
    | mk data =>
      cases data with
      | nil => rfl
      | cons c cs => simp [String.length] at this

/-- C5 helper: the mapped chunk at a valid start index is a nonempty
string, so `chunk_text`'s trailing filter keeps every chunk. -/
theorem chunk_at_start_ne_empty (ws : List String) (cs i : Nat)
    (hcs : 0 < cs) (hi : i < ws.length) (hws : ∀ w ∈ ws, w ≠ "") :
    pyJoin " " ((ws.drop i).take cs) ≠ "" := by
  apply pyJoin_ne_empty
  · have hlen : ((ws.drop i).take cs).length = min cs (ws.length - i) := by
      rw [List.length_take, List.length_drop]
    intro hnil
    rw [hnil] at hlen
    simp only [List.length_nil] at hlen
    omega
  · intro w hw
    exact hws w (List.mem_of_mem_drop (List.mem_of_mem_take hw))

theorem mem_take_drop_of_getElem {α : Type} (l : List α) (i j cs : Nat)
    (w : α) (hij : i ≤ j) (hjcs : j < i + cs) (hw : l[j]? = some w) :
    w ∈ (l.drop i).take cs := by
  have h1 : (l.drop i)[j - i]? = some w := by
    rw [List.getElem?_drop]
    rw [show i + (j - i) = j by omega]
    exact hw
  have h2 : ((l.drop i).take cs)[j - i]? = some w := by
    rw [List.getElem?_take_of_lt (by omega)]
    exact h1
  exact List.getElem?_mem h2

/-- Claim C5 — Chunking determinism and coverage.  `chunk_text` is a pure
Lean function (determinism is definitional).  For `overlap < chunk_size`
the call succeeds and returns exactly one chunk per start index in
`chunkStarts` (start indices advance by `chunk_size - overlap`), where
each chunk is the space-rejoining of the window of at most `chunk_size`
consecutive words beginning at its start index; every word index of the
text is covered by a window whose chunk is produced; and
`chunk_text ""` returns `[]` without error. -/
theorem chunk_text_C5 (text : String) (cs ov : Nat) (hov : ov < cs) :
    chunk_text text cs ov =
      Except.ok ((chunkStarts (pyWords text).length (cs - ov)).map
        (fun i => pyJoin " " (((pyWords text).drop i).take cs)))
    ∧ (∀ j, j < (pyWords text).length →
        ∃ i ∈ chunkStarts (pyWords text).length (cs - ov),
          i ≤ j ∧ j < i + cs ∧
          pyJoin " " (((pyWords text).drop i).take cs) ∈
            ((chunkStarts (pyWords text).length (cs - ov)).map
              (fun i => pyJoin " " (((pyWords text).drop i).take cs)))
          ∧ ∀ w, (pyWords text)[j]? = some w →
              w ∈ ((pyWords text).drop i).take cs)
    ∧ chunk_text "" cs ov = Except.ok [] := by
  have hstep : 0 < cs - ov := by omega
  have hcs : 0 < cs := by omega
  refine ⟨?_, ?_, ?_⟩
  · by_cases htext : text = ""
    · subst htext
      have hwords : pyWords "" = [] := rfl
      rw [hwords]
      simp [chunk_text, chunkStarts_zero hstep]
    · unfold chunk_text
      rw [if_neg htext, if_neg (by omega), if_neg (by omega)]
      congr 1
      rw [List.filter_eq_self]
      intro c hc
      rw [List.mem_map] at hc
      obtain ⟨i, hi, rfl⟩ := hc
      have : pyJoin " " (((pyWords text).drop i).take cs) ≠ "" :=
        chunk_at_start_ne_empty _ _ _ hcs (chunkStarts_lt hstep hi)
          (pyWords_ne_empty text)
      simpa [bne_iff_ne] using this
  · intro j hj
    obtain ⟨i, hi, hij, hjlt⟩ := chunkStarts_cover j hstep hj
    refine ⟨i, hi, hij, by omega, List.mem_map_of_mem _ hi, ?_⟩
    intro w hw
    exact mem_take_drop_of_getElem _ i j cs w hij (by omega) hw
  · rfl

/-- C5 witness: a concrete run.  `chunk_text "a b c d e" 3 1` produces
the windows starting at 0, 2, 4. -/
theorem chunk_text_C5_witness :
    chunk_text "a b c d e" 3 1 = Except.ok ["a b c", "c d e", "e"] :=
  ((chunk_text_C5 "a b c d e" 3 1 (by decide)).1).trans (by decide)

/-- Claim C6 — the claim's guard does not exist in the code.  With
`overlap > chunk_size` (negative stride) `chunk_text` silently returns
the empty chunk list instead of rejecting with a configuration error;
with `overlap = chunk_size` it raises Python `range`'s unguarded
`ValueError` rather than a deliberate configuration error. -/
theorem chunk_text_C6_no_guard :
    chunk_text "a b c d" 2 3 = Except.ok []
    ∧ chunk_text "a b c d" 2 2 =
        Except.error "range() arg 3 must not be zero" := by
  constructor
  · decide
  · decide

/-- Payload stored with each Qdrant point (`upload_knowledge_document`,
lines 281-291). -/
structure PointPayload where
  document_id : String
  document_name : String
  chunk_index : Nat
  text : String
  company_id : String
deriving DecidableEq

/-- A scored search result (`qdrant_client.query_points(...).points`
element): similarity score plus optional payload.  Scores are floats in
the source; they are modelled as exact rationals. -/
structure ScoredPoint where
  score : ℚ
  payload : Option PointPayload
deriving DecidableEq

/-- One entry of the chat handler's `sources` list. -/
structure SourceEntry where
  name : String
  relevance : ℚ
deriving DecidableEq

/-- Python `round(x)`: round to the nearest integer, ties to even. -/
def pyRoundInt (x : ℚ) : ℤ :=
  let f := ⌊x⌋
  if x - f < 1/2 then f
  else if (1 : ℚ)/2 < x - f then f + 1
  else if f % 2 = 0 then f else f + 1

/-- Python `round(x, 1)`: round to one decimal digit, ties to even. -/
def round1 (x : ℚ) : ℚ :=
  (pyRoundInt (10 * x) : ℚ) / 10

/-- The source-list entry built for a scored payload:
`{"name": doc_name, "relevance": round(score * 100, 1)}`. -/
def mkSource (sp : ℚ × PointPayload) : SourceEntry :=
  ⟨sp.2.document_name, round1 (sp.1 * 100)⟩

/-- The `for result in search_results` loop of `chat`
(`ai_chat_routes.py` lines 462-475): accumulate every payload text into
`context_chunks`, and append a source entry for each document name not
already present. -/
def build_context :
    List ScoredPoint → List String × List SourceEntry →
    List String × List SourceEntry
  | [], acc => acc
  | r :: rest, (cks, srcs) =>
    match r.payload with
    | none => build_context rest (cks, srcs)
    | some p =>
      if p.document_name ∈ srcs.map SourceEntry.name then
        build_context rest (cks ++ [p.text], srcs)
      else
        build_context rest
          (cks ++ [p.text], srcs ++ [⟨p.document_name, round1 (r.score * 100)⟩])

/-- The scored payloads of the results that have a payload. -/
def scoredPayloads (results : List ScoredPoint) : List (ℚ × PointPayload) :=
  results.filterMap (fun r => r.payload.map (fun p => (r.score, p)))

/-- Keep the first scored payload per document name, skipping names in
`seen`: the normal form of the source-list accumulation. -/
def dedupByName : List (ℚ × PointPayload) → List String → List (ℚ × PointPayload)
  | [], _ => []
  | sp :: rest, seen =>
    if sp.2.document_name ∈ seen then dedupByName rest seen
    else sp :: dedupByName rest (seen ++ [sp.2.document_name])

/-- The `sources` list the chat handler builds from the search results. -/
def chat_sources (results : List ScoredPoint) : List SourceEntry :=
  (build_context results ([], [])).2

/-- The `context_chunks` list the chat handler builds. -/
def chat_context_chunks (results : List ScoredPoint) : List String :=
  (build_context results ([], [])).1

/-- The `context` string:
`"\n\n---\n\n".join(context_chunks) if context_chunks else ""`. -/
def chat_context (results : List ScoredPoint) : String :=
  if chat_context_chunks results ≠ [] then
    pyJoin "\n\n---\n\n" (chat_context_chunks results)
  else ""

theorem build_context_fst (l : List ScoredPoint) :
    ∀ cks srcs, (build_context l (cks, srcs)).1
      = cks ++ (l.filterMap ScoredPoint.payload).map PointPayload.text := by
  induction l with
  | nil => intro cks srcs; simp [build_context]
  | cons r rest ih =>
    intro cks srcs
    cases hp : r.payload with
    | none =>
      simp only [build_context, hp, List.filterMap_cons]
      exact ih cks srcs
    | some p =>
      simp only [build_context, hp, List.filterMap_cons]
      split
      · rw [ih]
        simp
      · rw [ih]
        simp

theorem build_context_snd (l : List ScoredPoint) :
    ∀ cks srcs, (build_context l (cks, srcs)).2
      = srcs ++ (dedupByName (scoredPayloads l) (srcs.map SourceEntry.name)).map
          mkSource := by
  induction l with
  | nil => intro cks srcs; simp [build_context, scoredPayloads, dedupByName]
  | cons r rest ih =>
    intro cks srcs
    cases hp : r.payload with
    | none =>
      simp only [build_context, hp]
      have hsp : scoredPayloads (r :: rest) = scoredPayloads rest := by
        simp [scoredPayloads, List.filterMap_cons, hp]
      rw [hsp]
      exact ih _ srcs
    | some p =>
      have hsp : scoredPayloads (r :: rest)
          = (r.score, p) :: scoredPayloads rest := by
        simp [scoredPayloads, List.filterMap_cons, hp]
      have hded : dedupByName ((r.score, p) :: scoredPayloads rest)
          (srcs.map SourceEntry.name) =
          if p.document_name ∈ srcs.map SourceEntry.name then
            dedupByName (scoredPayloads rest) (srcs.map SourceEntry.name)
          else (r.score, p) :: dedupByName (scoredPayloads rest)
            (srcs.map SourceEntry.name ++ [p.document_name]) := rfl
      simp only [build_context, hp, hsp, hded]
      split
      · next hmem =>
        exact ih _ srcs
      · next hmem =>
        rw [ih]
        have hnames : (srcs ++ [(⟨p.document_name, round1 (r.score * 100)⟩ :
            SourceEntry)]).map SourceEntry.name
            = srcs.map SourceEntry.name ++ [p.document_name] := by
          simp
        rw [hnames]
        simp [mkSource]

theorem dedupByName_sublist (l : List (ℚ × PointPayload)) :
    ∀ seen, (dedupByName l seen).Sublist l := by
  induction l with
  | nil => intro seen; simp [dedupByName]
  | cons sp rest ih =>
    intro seen
    unfold dedupByName
    split
    · exact (ih seen).cons sp
    · exact (ih _).cons₂ sp

theorem dedupByName_names (l : List (ℚ × PointPayload)) :
    ∀ seen, (∀ sp ∈ dedupByName l seen, sp.2.document_name ∉ seen)
      ∧ ((dedupByName l seen).map (fun sp => sp.2.document_name)).Nodup := by
  induction l with
  | nil => intro seen; simp [dedupByName]
  | cons sp rest ih =>
    intro seen
    unfold dedupByName
    split
    · next hmem => exact ih seen
    · next hmem =>
      refine ⟨?_, ?_⟩
      · intro x hx
        rw [List.mem_cons] at hx
        rcases hx with rfl | hx
        · exact hmem
        · intro hxs
          exact (ih (seen ++ [sp.2.document_name])).1 x hx
            (List.mem_append_left _ hxs)
      · rw [List.map_cons, List.nodup_cons]
        refine ⟨?_, (ih _).2⟩
        intro hmm
        rw [List.mem_map] at hmm
        obtain ⟨x, hx, hxe⟩ := hmm
        exact (ih _).1 x hx (List.mem_append_right _ (by simp [hxe]))

theorem dedupByName_find (l : List (ℚ × PointPayload)) :
    ∀ seen, ∀ sp ∈ dedupByName l seen,
      sp.2.document_name ∉ seen ∧
      l.find? (fun x => x.2.document_name == sp.2.document_name) = some sp := by
  induction l with
  | nil => intro seen sp h; simp [dedupByName] at h
  | cons hd rest ih =>
    intro seen sp hsp
    unfold dedupByName at hsp
    split at hsp
    · next hmem =>
      obtain ⟨hnotseen, hfind⟩ := ih seen sp hsp
      refine ⟨hnotseen, ?_⟩
      have hne : hd.2.document_name ≠ sp.2.document_name :=
        fun he => hnotseen (he ▸ hmem)
      rw [List.find?_cons_of_neg _ (by simp only [beq_iff_eq]; exact hne)]
      exact hfind
    · next hmem =>
      rw [List.mem_cons] at hsp
      rcases hsp with rfl | hsp
      · exact ⟨hmem, List.find?_cons_of_pos _ (by simp)⟩
      · obtain ⟨hnot, hfind⟩ := ih _ sp hsp
        have hne : hd.2.document_name ≠ sp.2.document_name := by
          intro he
          exact hnot (List.mem_append_right _ (by simp [he]))
        refine ⟨fun hs => hnot (List.mem_append_left _ hs), ?_⟩
        rw [List.find?_cons_of_neg _ (by simp only [beq_iff_eq]; exact hne)]
        exact hfind

theorem scoredPayloads_pairwise {results : List ScoredPoint}
    (h : results.Pairwise (fun a b => b.score ≤ a.score)) :
    (scoredPayloads results).Pairwise (fun a b => b.1 ≤ a.1) := by
  induction results with
  | nil => simp [scoredPayloads]
  | cons r rest ih =>
    rw [List.pairwise_cons] at h
    obtain ⟨hr, hrest⟩ := h
    cases hp : r.payload with
    | none =>
      have hsp : scoredPayloads (r :: rest) = scoredPayloads rest := by
        simp [scoredPayloads, List.filterMap_cons, hp]
      rw [hsp]
      exact ih hrest
    | some p =>
      have hsp : scoredPayloads (r :: rest)
          = (r.score, p) :: scoredPayloads rest := by
        simp [scoredPayloads, List.filterMap_cons, hp]
      rw [hsp, List.pairwise_cons]
      refine ⟨?_, ih hrest⟩
      intro x hx
      unfold scoredPayloads at hx
      rw [List.mem_filterMap] at hx
      obtain ⟨r', hr', hfx⟩ := hx
      cases hp' : r'.payload with
      | none => rw [hp'] at hfx; simp at hfx
      | some p' =>
        rw [hp'] at hfx
        have hx1 : x = (r'.score, p') := by
          simpa using hfx.symm
        rw [hx1]
        exact hr r' hr'

/-- Claim C4 — Source-list construction.  For search results sorted by
descending score, the `sources` list the chat loop builds is exactly
`dedupByName` (first occurrence per distinct document name) mapped
through `mkSource` (relevance = `round(score * 100, 1)`): document
names are pairwise distinct, each retained entry is the first (hence
best-scoring) occurrence of its document name, entries are ordered by
descending score of that occurrence, and the context string joins every
matched chunk's text in the given order with the `"\n\n---\n\n"`
delimiter. -/
theorem chat_sources_C4 (results : List ScoredPoint)
    (hsorted : results.Pairwise (fun a b => b.score ≤ a.score)) :
    chat_sources results = (dedupByName (scoredPayloads results) []).map mkSource
    ∧ ((dedupByName (scoredPayloads results) []).map
        (fun sp => sp.2.document_name)).Nodup
    ∧ (∀ sp ∈ dedupByName (scoredPayloads results) [],
        (scoredPayloads results).find?
          (fun x => x.2.document_name == sp.2.document_name) = some sp)
    ∧ (dedupByName (scoredPayloads results) []).Pairwise (fun a b => b.1 ≤ a.1)
    ∧ chat_context results =
        pyJoin "\n\n---\n\n"
          ((results.filterMap ScoredPoint.payload).map PointPayload.text) := by
  refine ⟨?_, (dedupByName_names _ []).2,
    fun sp h => (dedupByName_find _ [] sp h).2,
    List.Pairwise.sublist (dedupByName_sublist _ [])
      (scoredPayloads_pairwise hsorted), ?_⟩
  · unfold chat_sources
    rw [build_context_snd]
    rfl
  · unfold chat_context chat_context_chunks
    rw [build_context_fst]
    simp only [List.nil_append]
    split
    · rfl
    · next hchunks =>
      rw [not_ne_iff] at hchunks
      rw [hchunks]
      rfl


theorem pyRoundInt_intCast (m : ℤ) : pyRoundInt (m : ℚ) = m := by
  unfold pyRoundInt
  rw [Int.floor_intCast]
  simp

/-- Evaluate `round1` when `10 * x` is an integer. -/
theorem round1_of_int (x : ℚ) (m : ℤ) (h : 10 * x = (m : ℚ)) :
    round1 x = (m : ℚ) / 10 := by
  unfold round1
  rw [h, pyRoundInt_intCast]

/-- C4 witness: a concrete descending-score result list with a repeated
document name. -/
def c4input : List ScoredPoint :=
  [⟨9/10, some ⟨"d1", "PolicyA", 0, "chunk one", "t"⟩⟩,
   ⟨4/5, some ⟨"d2", "PolicyB", 1, "chunk two", "t"⟩⟩,
   ⟨7/10, some ⟨"d1", "PolicyA", 2, "chunk three", "t"⟩⟩]

theorem chat_sources_C4_witness :
    chat_sources c4input = [⟨"PolicyA", 90⟩, ⟨"PolicyB", 80⟩]
    ∧ chat_context c4input =
        "chunk one\n\n---\n\nchunk two\n\n---\n\nchunk three" := by
  have hpair : c4input.Pairwise (fun a b => b.score ≤ a.score) := by
    norm_num [c4input, List.pairwise_cons]
  have h90 : round1 ((9 : ℚ)/10 * 100) = 90 :=
    (round1_of_int _ 900 (by norm_num)).trans (by norm_num)
  have h80 : round1 ((4 : ℚ)/5 * 100) = 80 :=
    (round1_of_int _ 800 (by norm_num)).trans (by norm_num)
  constructor
  · refine ((chat_sources_C4 c4input hpair).1).trans ?_
    show (dedupByName (scoredPayloads c4input) []).map mkSource = _
    simp [c4input, scoredPayloads, dedupByName, mkSource, h90, h80]
  · refine ((chat_sources_C4 c4input hpair).2.2.2.2).trans ?_
    show pyJoin "\n\n---\n\n"
      ((c4input.filterMap ScoredPoint.payload).map PointPayload.text) = _
    rfl

/-- Modelled from the spec: the `KnowledgeDocument` pydantic model is
imported from `models` in `ai_chat_routes.py` but its class definition
is not among the provided sources; fields follow spec section 3 (the
process-generated creation timestamp is elided; the generated id is
passed in explicitly by the caller of the embedding). -/
structure KnowledgeDocument where
  id : String
  company_id : String
  filename : String
  file_type : String
  file_size : Nat
  content_hash : String
  chunk_count : Nat
  uploaded_by : String
deriving DecidableEq

/-- Modelled from the spec: the `ChatMessage` pydantic model is not
among the provided sources; fields follow spec section 3 (id and
timestamp elided as process-generated). -/
structure ChatMessage where
  company_id : String
  user_id : String
  session_id : String
  role : String
  content : String
  sources : List String
deriving DecidableEq

/-- A stored Qdrant point (`qmodels.PointStruct`). -/
structure VectorPoint where
  id : String
  vector : List ℚ
  payload : PointPayload
deriving DecidableEq

/-- A Qdrant collection: name, vector dimension, stored points.  The
cosine-distance setting is common to every created collection and is
not tracked separately. -/
structure QCollection where
  name : String
  dim : Nat
  points : List VectorPoint
deriving DecidableEq

/-- The persistent state the handlers touch: the Qdrant collections and
the two MongoDB collections (`knowledge_documents`, `chat_messages`). -/
structure AppState where
  collections : List QCollection
  knowledge_documents : List KnowledgeDocument
  chat_messages : List ChatMessage
deriving DecidableEq

/-- Python `company_id.replace('-', '_')` (single-character pattern). -/
def replaceDashes (s : String) : String :=
  String.mk (s.data.map (fun c => if c = '-' then '_' else c))

/-- `get_collection_name`: `"hr_knowledge_" + company_id.replace('-','_')`. -/
def get_collection_name (company_id : String) : String :=
  "hr_knowledge_" ++ replaceDashes company_id

/-- `qdrant_client.get_collection` by name. -/
def findCollection (st : AppState) (cname : String) : Option QCollection :=
  st.collections.find? (fun c => c.name == cname)

/-- `ensure_collection` from `ai_chat_routes.py`: look the collection
up; absent → create it with `EMBEDDING_DIM`/cosine; present with a
different dimension → delete it, then the raised-and-caught exception
leads to recreation empty; present with the right dimension → no
change.  The Qdrant operations themselves are assumed to succeed (the
spec claims concern successful calls). -/
def ensure_collection (st : AppState) (company_id : String) : AppState :=
  match findCollection st (get_collection_name company_id) with
  | some c =>
    if c.dim ≠ EMBEDDING_DIM then
      { st with collections :=
          (st.collections.filter
            (fun c2 => c2.name != get_collection_name company_id)) ++
            [⟨get_collection_name company_id, EMBEDDING_DIM, []⟩] }
    else st
  | none =>
    { st with collections :=
        st.collections ++ [⟨get_collection_name company_id, EMBEDDING_DIM, []⟩] }

/-- All points stored in any collection. -/
def allPoints (st : AppState) : List VectorPoint :=
  (st.collections.map QCollection.points).flatten

theorem find_filtered_append {cname : String} (cols : List QCollection) :
    ((cols.filter (fun c2 => c2.name != cname)) ++
      [(⟨cname, EMBEDDING_DIM, []⟩ : QCollection)]).find?
        (fun c => c.name == cname) = some ⟨cname, EMBEDDING_DIM, []⟩ := by
  rw [List.find?_append]
  have hnone : (cols.filter (fun c2 => c2.name != cname)).find?
      (fun c => c.name == cname) = none := by
    rw [List.find?_eq_none]
    intro x hx
    rw [List.mem_filter] at hx
    simpa [bne_iff_ne] using hx.2
  rw [hnone]
  simp

theorem ensure_collection_of_none (st : AppState) (cid : String)
    (h : findCollection st (get_collection_name cid) = none) :
    ensure_collection st cid =
      { st with collections :=
          st.collections ++ [⟨get_collection_name cid, EMBEDDING_DIM, []⟩] } := by
  simp only [ensure_collection, h]

theorem ensure_collection_of_ne (st : AppState) (cid : String) (c : QCollection)
    (h : findCollection st (get_collection_name cid) = some c)
    (hdim : c.dim ≠ EMBEDDING_DIM) :
    ensure_collection st cid =
      { st with collections :=
          (st.collections.filter
            (fun c2 => c2.name != get_collection_name cid)) ++
            [⟨get_collection_name cid, EMBEDDING_DIM, []⟩] } := by
  simp only [ensure_collection, h]
  rw [if_pos hdim]

theorem ensure_collection_of_eq (st : AppState) (cid : String) (c : QCollection)
    (h : findCollection st (get_collection_name cid) = some c)
    (hdim : c.dim = EMBEDDING_DIM) :
    ensure_collection st cid = st := by
  simp only [ensure_collection, h]
  rw [if_neg (not_ne_iff.mpr hdim)]

theorem ensure_collection_docs (st : AppState) (cid : String) :
    (ensure_collection st cid).knowledge_documents = st.knowledge_documents := by
  cases hfc : findCollection st (get_collection_name cid) with
  | none => rw [ensure_collection_of_none st cid hfc]
  | some c =>
    by_cases hdim : c.dim = EMBEDDING_DIM
    · rw [ensure_collection_of_eq st cid c hfc hdim]
    · rw [ensure_collection_of_ne st cid c hfc hdim]

theorem ensure_collection_chats (st : AppState) (cid : String) :
    (ensure_collection st cid).chat_messages = st.chat_messages := by
  cases hfc : findCollection st (get_collection_name cid) with
  | none => rw [ensure_collection_of_none st cid hfc]
  | some c =>
    by_cases hdim : c.dim = EMBEDDING_DIM
    · rw [ensure_collection_of_eq st cid c hfc hdim]
    · rw [ensure_collection_of_ne st cid c hfc hdim]

theorem ensure_collection_points_sub (st : AppState) (cid : String)
    (p : VectorPoint) (hp : p ∈ allPoints (ensure_collection st cid)) :
    p ∈ allPoints st := by
  cases hfc : findCollection st (get_collection_name cid) with
  | none =>
    rw [ensure_collection_of_none st cid hfc] at hp
    simp only [allPoints, List.mem_flatten, List.mem_map] at hp ⊢
    obtain ⟨l, ⟨c2, hc2, rfl⟩, hpl⟩ := hp
    rw [List.mem_append] at hc2
    rcases hc2 with hc2 | hc2
    · exact ⟨c2.points, ⟨c2, hc2, rfl⟩, hpl⟩
    · rw [List.mem_singleton] at hc2
      subst hc2
      exact absurd hpl (List.not_mem_nil p)
  | some c =>
    by_cases hdim : c.dim = EMBEDDING_DIM
    · rw [ensure_collection_of_eq st cid c hfc hdim] at hp
      exact hp
    · rw [ensure_collection_of_ne st cid c hfc hdim] at hp
      simp only [allPoints, List.mem_flatten, List.mem_map] at hp ⊢
      obtain ⟨l, ⟨c2, hc2, rfl⟩, hpl⟩ := hp
      rw [List.mem_append] at hc2
      rcases hc2 with hc2 | hc2
      · rw [List.mem_filter] at hc2
        exact ⟨c2.points, ⟨c2, hc2.1, rfl⟩, hpl⟩
      · rw [List.mem_singleton] at hc2
        subst hc2
        exact absurd hpl (List.not_mem_nil p)

/-- Claim C7 — Collection-dimension invariant and auto-migration.  After
`ensure_collection`, the tenant's collection exists with exactly
`EMBEDDING_DIM = 384`; a pre-existing collection with a different
dimension is destroyed and recreated empty with no error; a
pre-existing collection with the active dimension is left untouched
(the whole state is unchanged, so the call is idempotent). -/
theorem ensure_collection_C7 (st : AppState) (cid : String) :
    (∃ c', findCollection (ensure_collection st cid)
        (get_collection_name cid) = some c' ∧ c'.dim = EMBEDDING_DIM)
    ∧ (∀ c, findCollection st (get_collection_name cid) = some c →
        c.dim ≠ EMBEDDING_DIM →
        findCollection (ensure_collection st cid) (get_collection_name cid)
          = some ⟨get_collection_name cid, EMBEDDING_DIM, []⟩)
    ∧ (∀ c, findCollection st (get_collection_name cid) = some c →
        c.dim = EMBEDDING_DIM → ensure_collection st cid = st) := by
  have hne : ∀ c, findCollection st (get_collection_name cid) = some c →
      c.dim ≠ EMBEDDING_DIM →
      findCollection (ensure_collection st cid) (get_collection_name cid)
        = some ⟨get_collection_name cid, EMBEDDING_DIM, []⟩ := by
    intro c hfc hdim
    rw [ensure_collection_of_ne st cid c hfc hdim]
    unfold findCollection
    exact find_filtered_append st.collections
  have heq : ∀ c, findCollection st (get_collection_name cid) = some c →
      c.dim = EMBEDDING_DIM → ensure_collection st cid = st :=
    fun c hfc hdim => ensure_collection_of_eq st cid c hfc hdim
  refine ⟨?_, hne, heq⟩
  cases hfc : findCollection st (get_collection_name cid) with
  | none =>
    refine ⟨⟨get_collection_name cid, EMBEDDING_DIM, []⟩, ?_, rfl⟩
    rw [ensure_collection_of_none st cid hfc]
    unfold findCollection at hfc ⊢
    dsimp only
    rw [List.find?_append, hfc]
    simp
  | some c =>
    by_cases hdim : c.dim = EMBEDDING_DIM
    · exact ⟨c, by rw [heq c hfc hdim]; exact hfc, hdim⟩
    · exact ⟨⟨get_collection_name cid, EMBEDDING_DIM, []⟩, hne c hfc hdim, rfl⟩

/-- C7 witness states: a tenant collection with a stale dimension and
one with the active dimension. -/
def c7wrong : AppState :=
  ⟨[⟨"hr_knowledge_t1", 512, [⟨"pid0", [], ⟨"d0", "Old.pdf", 0, "old chunk", "t1"⟩⟩]⟩],
    [], []⟩

def c7right : AppState := ⟨[⟨"hr_knowledge_t1", 384, []⟩], [], []⟩

theorem ensure_collection_C7_witness :
    findCollection (ensure_collection c7wrong "t1") "hr_knowledge_t1"
      = some ⟨"hr_knowledge_t1", EMBEDDING_DIM, []⟩
    ∧ ensure_collection c7right "t1" = c7right :=
  ⟨(ensure_collection_C7 c7wrong "t1").2.1
      ⟨"hr_knowledge_t1", 512, [⟨"pid0", [], ⟨"d0", "Old.pdf", 0, "old chunk", "t1"⟩⟩]⟩
      (by decide) (by decide),
   (ensure_collection_C7 c7right "t1").2.2
      ⟨"hr_knowledge_t1", 384, []⟩ (by decide) (by decide)⟩

/-- Python `str.lower()` (per-character). -/
def pyLower (s : String) : String :=
  String.mk (s.data.map Char.toLower)

/-- Python `s.endswith(suffix)`. -/
def pyEndsWith (s suffix : String) : Bool :=
  suffix.data.isSuffixOf s.data

/-- The tuple test `filename.endswith(('.pdf', '.doc', '.docx'))`. -/
def supported_filename (fl : String) : Bool :=
  pyEndsWith fl ".pdf" || pyEndsWith fl ".doc" || pyEndsWith fl ".docx"

/-- `file_type` detection on the lowered filename: `.pdf` → pdf,
`.docx` → docx, anything else (necessarily `.doc`) → doc. -/
def file_type_of (fl : String) : String :=
  if pyEndsWith fl ".pdf" then "pdf"
  else if pyEndsWith fl ".docx" then "docx"
  else "doc"

/-- The fixed 400 detail raised by the matching extractor
(`extract_text_from_pdf` / `..._docx` / `..._doc`). -/
def extract_error_detail (file_type : String) : String :=
  if file_type = "pdf" then "Failed to extract text from PDF"
  else if file_type = "docx" then "Failed to extract text from DOCX"
  else "Failed to extract text from DOC file. Consider converting to DOCX or PDF."

/-- An `HTTPException`: status code and caller-visible detail. -/
structure HTTPError where
  status_code : Nat
  detail : String
deriving DecidableEq

/-- The JSON body `upload_knowledge_document` returns on success or on
the duplicate path (fields absent from the duplicate body are `none`). -/
structure UploadResponse where
  message : String
  document_id : String
  duplicate : Bool
  steps_completed : List String
  filename : Option String
  chunks_created : Option Nat
deriving DecidableEq

/-- `qdrant_client.upsert`: append the fresh-id points to the named
collection (modelled as atomic; the handler passes `wait=True`). -/
def upsertPoints (st : AppState) (cname : String) (pts : List VectorPoint) :
    AppState :=
  { st with
    collections :=
      st.collections.map (fun c =>
        if c.name = cname then { c with points := c.points ++ pts } else c) }

/-- The point list built in the `for i, (chunk, embedding) in
enumerate(zip(chunks, embeddings))` loop. -/
def upload_points (chunks : List String) (embeddings : List (List ℚ))
    (newDocId filename company_id : String) (pointId : Nat → String) :
    List VectorPoint :=
  ((chunks.zip embeddings).enum).map (fun ie =>
    ⟨pointId ie.1, ie.2.2, ⟨newDocId, filename, ie.1, ie.2.1, company_id⟩⟩)

/-- `upload_knowledge_document` from `ai_chat_routes.py`.

External effects are oracles: `extract_res` is the outcome of the
format-specific text extraction (its 400 detail is fixed by file type),
`embed_res` the outcome of `get_embeddings_batch` (failure raises a 500
whose detail embeds the internal message), `upsert_res` the outcome of
the durable batch upsert (failure propagates to the generic 500 handler
whose detail also embeds the internal message).  `md5hex` is the MD5
hex digest function over the raw bytes (`content`), `newDocId` the
freshly generated document uuid, `pointId` the per-index point uuids. -/
def upload_knowledge_document (st : AppState) (company_id admin_id : String)
    (filename : String) (content : List Nat) (md5hex : List Nat → String)
    (newDocId : String) (pointId : Nat → String)
    (extract_res : Except String String)
    (embed_res : Except String (List (List ℚ)))
    (upsert_res : Except String Unit) :
    Except HTTPError UploadResponse × AppState :=
  if supported_filename (pyLower filename) = false then
    (Except.error ⟨400, "Only PDF, DOC, and DOCX files are supported"⟩, st)
  else
    match st.knowledge_documents.find?
        (fun d => d.company_id == company_id
          && d.content_hash == md5hex content) with
    | some existing =>
      (Except.ok ⟨"This document has already been uploaded", existing.id, true,
        ["duplicate_check"], none, none⟩, st)
    | none =>
      match extract_res with
      | Except.error _ =>
        (Except.error
          ⟨400, extract_error_detail (file_type_of (pyLower filename))⟩, st)
      | Except.ok text =>
        if text = "" ∨ text.length < 10 then
          (Except.error
            ⟨400, "Could not extract meaningful text from document"⟩, st)
        else
          match chunk_text text 500 50 with
          | Except.error e =>
            (Except.error
              ⟨500, "An error occurred while uploading document: " ++ e⟩, st)
          | Except.ok chunks =>
            if chunks = [] then
              (Except.error ⟨400, "Document too short or empty"⟩, st)
            else
              match embed_res with
              | Except.error e =>
                (Except.error ⟨500, "Failed to generate embeddings: " ++ e⟩,
                  ensure_collection st company_id)
              | Except.ok embeddings =>
                match upsert_res with
                | Except.error e =>
                  (Except.error
                    ⟨500, "An error occurred while uploading document: " ++ e⟩,
                    ensure_collection st company_id)
                | Except.ok _ =>
                  let st2 := upsertPoints (ensure_collection st company_id)
                    (get_collection_name company_id)
                    (upload_points chunks embeddings newDocId filename
                      company_id pointId)
                  (Except.ok
                    ⟨"Document uploaded and processed successfully", newDocId,
                      false,
                      ["file_received", "text_extracted", "chunks_created",
                        "embeddings_generated", "vectors_stored",
                        "metadata_saved"],
                      some filename, some chunks.length⟩,
                    { st2 with
                      knowledge_documents :=
                        st2.knowledge_documents
                          ++ [⟨newDocId, company_id, filename,
                                file_type_of (pyLower filename),
                                content.length, md5hex content, chunks.length,
                                admin_id⟩] })

theorem mem_allPoints_upsertPoints (st : AppState) (cname : String)
    (pts : List VectorPoint) (c' : QCollection)
    (hc : findCollection st cname = some c') :
    ∀ p ∈ pts, p ∈ allPoints (upsertPoints st cname pts) := by
  intro p hp
  have hcmem : c' ∈ st.collections ∧ c'.name = cname := by
    unfold findCollection at hc
    refine ⟨List.mem_of_find?_eq_some hc, ?_⟩
    have h2 := List.find?_some hc
    simpa using h2
  have hupd : ({ c' with points := c'.points ++ pts } : QCollection) ∈
      (upsertPoints st cname pts).collections := by
    simp only [upsertPoints]
    rw [List.mem_map]
    exact ⟨c', hcmem.1, by rw [if_pos hcmem.2]⟩
  simp only [allPoints, List.mem_flatten, List.mem_map]
  exact ⟨c'.points ++ pts, ⟨_, hupd, rfl⟩, List.mem_append_right _ hp⟩

/-- Claim C2 — Duplicate upload idempotence.  When a metadata record for
`(tenant, md5(content))` already exists, the upload returns immediately
with `duplicate = true` and the existing record's id, the state is
unchanged (no vector write, no metadata insert), the outcome is
independent of the extraction/embedding/upsert oracles (none of that
work is consulted), and the number of matching metadata records stays
exactly one. -/
theorem upload_C2 (st : AppState) (company_id admin_id filename : String)
    (content : List Nat) (md5hex : List Nat → String) (newDocId : String)
    (pointId : Nat → String)
    (e1 e1' : Except String String) (e2 e2' : Except String (List (List ℚ)))
    (e3 e3' : Except String Unit) (existing : KnowledgeDocument)
    (hfmt : supported_filename (pyLower filename) = true)
    (hdup : st.knowledge_documents.find?
        (fun d => d.company_id == company_id
          && d.content_hash == md5hex content) = some existing) :
    upload_knowledge_document st company_id admin_id filename content md5hex
        newDocId pointId e1 e2 e3
      = (Except.ok ⟨"This document has already been uploaded", existing.id,
          true, ["duplicate_check"], none, none⟩, st)
    ∧ upload_knowledge_document st company_id admin_id filename content md5hex
        newDocId pointId e1 e2 e3
      = upload_knowledge_document st company_id admin_id filename content
          md5hex newDocId pointId e1' e2' e3'
    ∧ ((st.knowledge_documents.filter
          (fun d => d.company_id == company_id
            && d.content_hash == md5hex content)).length = 1 →
        ((upload_knowledge_document st company_id admin_id filename content
            md5hex newDocId pointId e1 e2 e3).2.knowledge_documents.filter
          (fun d => d.company_id == company_id
            && d.content_hash == md5hex content)).length = 1) := by
  have key : ∀ (a : Except String String) (b : Except String (List (List ℚ)))
      (c : Except String Unit),
      upload_knowledge_document st company_id admin_id filename content md5hex
          newDocId pointId a b c
        = (Except.ok ⟨"This document has already been uploaded", existing.id,
            true, ["duplicate_check"], none, none⟩, st) := by
    intro a b c
    unfold upload_knowledge_document
    rw [if_neg (by rw [hfmt]; simp), hdup]
  refine ⟨key e1 e2 e3, (key e1 e2 e3).trans (key e1' e2' e3').symm, ?_⟩
  intro h
  rw [key e1 e2 e3]
  exact h

/-- C2 witness state: one tenant-`t1` document with content hash `"H"`. -/
def c2doc : KnowledgeDocument :=
  ⟨"doc-1", "t1", "Handbook.pdf", "pdf", 3, "H", 1, "admin-1"⟩

def c2state : AppState := ⟨[], [c2doc], []⟩

theorem upload_C2_witness :
    upload_knowledge_document c2state "t1" "admin-1" "Handbook.pdf" [0, 1, 2]
        (fun _ => "H") "doc-2" (fun _ => "p") (Except.ok "other text")
        (Except.ok []) (Except.ok ())
      = (Except.ok ⟨"This document has already been uploaded", "doc-1", true,
          ["duplicate_check"], none, none⟩, c2state) :=
  (upload_C2 c2state "t1" "admin-1" "Handbook.pdf" [0, 1, 2] (fun _ => "H")
    "doc-2" (fun _ => "p") (Except.ok "other text") (Except.error "x")
    (Except.ok []) (Except.error "y") (Except.ok ()) (Except.error "z") c2doc
    (by decide) (by decide)).1

/-- Claim C1 — Ingestion atomicity and commit ordering.  Past the
validation stages, (i) a batch-embedding failure terminates the upload
with an error and leaves the metadata store unchanged and no vector
point carrying the fresh document id; (ii) an upsert failure does the
same; (iii) a metadata record with the fresh document id exists
afterwards only if both the batch embedding and the durable upsert
succeeded; (iv) on success the metadata record is inserted (after the
upsert) and every constructed point is durably stored. -/
theorem upload_C1 (st : AppState) (company_id admin_id filename : String)
    (content : List Nat) (md5hex : List Nat → String) (newDocId : String)
    (pointId : Nat → String) (text : String) (chunks : List String)
    (embed_res : Except String (List (List ℚ)))
    (upsert_res : Except String Unit)
    (hfmt : supported_filename (pyLower filename) = true)
    (hdup : st.knowledge_documents.find?
        (fun d => d.company_id == company_id
          && d.content_hash == md5hex content) = none)
    (hlen : ¬(text = "" ∨ text.length < 10))
    (hchunks : chunk_text text 500 50 = Except.ok chunks)
    (hne : ¬(chunks = []))
    (hfreshdoc : ∀ d ∈ st.knowledge_documents, d.id ≠ newDocId)
    (hfreshpts : ∀ p ∈ allPoints st, p.payload.document_id ≠ newDocId) :
    (∀ e, embed_res = Except.error e →
      upload_knowledge_document st company_id admin_id filename content md5hex
          newDocId pointId (Except.ok text) embed_res upsert_res
        = (Except.error ⟨500, "Failed to generate embeddings: " ++ e⟩,
            ensure_collection st company_id)
      ∧ (upload_knowledge_document st company_id admin_id filename content
          md5hex newDocId pointId (Except.ok text) embed_res
          upsert_res).2.knowledge_documents = st.knowledge_documents
      ∧ ∀ p ∈ allPoints (upload_knowledge_document st company_id admin_id
          filename content md5hex newDocId pointId (Except.ok text) embed_res
          upsert_res).2, p.payload.document_id ≠ newDocId)
    ∧ (∀ embeddings e, embed_res = Except.ok embeddings →
        upsert_res = Except.error e →
        upload_knowledge_document st company_id admin_id filename content
            md5hex newDocId pointId (Except.ok text) embed_res upsert_res
          = (Except.error
              ⟨500, "An error occurred while uploading document: " ++ e⟩,
              ensure_collection st company_id)
        ∧ (upload_knowledge_document st company_id admin_id filename content
            md5hex newDocId pointId (Except.ok text) embed_res
            upsert_res).2.knowledge_documents = st.knowledge_documents
        ∧ ∀ p ∈ allPoints (upload_knowledge_document st company_id admin_id
            filename content md5hex newDocId pointId (Except.ok text)
            embed_res upsert_res).2, p.payload.document_id ≠ newDocId)
    ∧ (∀ d ∈ (upload_knowledge_document st company_id admin_id filename
          content md5hex newDocId pointId (Except.ok text) embed_res
          upsert_res).2.knowledge_documents, d.id = newDocId →
        (∃ embeddings, embed_res = Except.ok embeddings)
        ∧ upsert_res = Except.ok ())
    ∧ (∀ embeddings, embed_res = Except.ok embeddings →
        upsert_res = Except.ok () →
        (upload_knowledge_document st company_id admin_id filename content
            md5hex newDocId pointId (Except.ok text) embed_res
            upsert_res).2.knowledge_documents
          = st.knowledge_documents
            ++ [⟨newDocId, company_id, filename,
                  file_type_of (pyLower filename), content.length,
                  md5hex content, chunks.length, admin_id⟩]
        ∧ ∀ p ∈ upload_points chunks embeddings newDocId filename company_id
            pointId,
            p ∈ allPoints (upload_knowledge_document st company_id admin_id
              filename content md5hex newDocId pointId (Except.ok text)
              embed_res upsert_res).2) := by
  have hred : ∀ (b : Except String (List (List ℚ))) (c : Except String Unit),
      upload_knowledge_document st company_id admin_id filename content md5hex
          newDocId pointId (Except.ok text) b c
        = match b with
          | Except.error e =>
            (Except.error ⟨500, "Failed to generate embeddings: " ++ e⟩,
              ensure_collection st company_id)
          | Except.ok embeddings =>
            match c with
            | Except.error e =>
              (Except.error
                ⟨500, "An error occurred while uploading document: " ++ e⟩,
                ensure_collection st company_id)
            | Except.ok _ =>
              (Except.ok
                ⟨"Document uploaded and processed successfully", newDocId,
                  false,
                  ["file_received", "text_extracted", "chunks_created",
                    "embeddings_generated", "vectors_stored",
                    "metadata_saved"],
                  some filename, some chunks.length⟩,
                { upsertPoints (ensure_collection st company_id)
                    (get_collection_name company_id)
                    (upload_points chunks embeddings newDocId filename
                      company_id pointId) with
                  knowledge_documents :=
                    (upsertPoints (ensure_collection st company_id)
                      (get_collection_name company_id)
                      (upload_points chunks embeddings newDocId filename
                        company_id pointId)).knowledge_documents
                      ++ [⟨newDocId, company_id, filename,
                            file_type_of (pyLower filename), content.length,
                            md5hex content, chunks.length, admin_id⟩] }) := by
    intro b c
    unfold upload_knowledge_document
    rw [if_neg (by rw [hfmt]; simp), hdup]
    dsimp only
    rw [if_neg hlen, hchunks]
    dsimp only
    rw [if_neg hne]
  have hpts_err : ∀ p ∈ allPoints (ensure_collection st company_id),
      p.payload.document_id ≠ newDocId :=
    fun p hp => hfreshpts p (ensure_collection_points_sub st company_id p hp)
  refine ⟨?_, ?_, ?_, ?_⟩
  · intro e he
    subst he
    rw [hred]
    exact ⟨rfl, ensure_collection_docs st company_id, hpts_err⟩
  · intro embeddings e hb hc
    subst hb
    subst hc
    rw [hred]
    exact ⟨rfl, ensure_collection_docs st company_id, hpts_err⟩
  · intro d hd hid
    cases hb : embed_res with
    | error e =>
      subst hb
      rw [hred] at hd
      rw [ensure_collection_docs st company_id] at hd
      exact absurd hid (hfreshdoc d hd)
    | ok embeddings =>
      subst hb
      cases hc : upsert_res with
      | error e =>
        subst hc
        rw [hred] at hd
        rw [ensure_collection_docs st company_id] at hd
        exact absurd hid (hfreshdoc d hd)
      | ok u =>
        subst hc
        cases u
        exact ⟨⟨embeddings, rfl⟩, rfl⟩
  · intro embeddings hb hc
    subst hb
    subst hc
    rw [hred]
    constructor
    · show (upsertPoints (ensure_collection st company_id)
          (get_collection_name company_id)
          (upload_points chunks embeddings newDocId filename company_id
            pointId)).knowledge_documents ++ _ = _
      rw [show (upsertPoints (ensure_collection st company_id)
            (get_collection_name company_id)
            (upload_points chunks embeddings newDocId filename company_id
              pointId)).knowledge_documents
          = (ensure_collection st company_id).knowledge_documents from rfl]
      rw [ensure_collection_docs st company_id]
    · intro p hp
      obtain ⟨c', hc', _⟩ := (ensure_collection_C7 st company_id).1
      exact mem_allPoints_upsertPoints (ensure_collection st company_id)
        (get_collection_name company_id) _ c' hc' p hp

theorem upload_C1_witness :
    upload_knowledge_document ⟨[], [], []⟩ "t1" "admin-1" "Guide.pdf" [7]
        (fun _ => "G") "doc-9" (fun _ => "p")
        (Except.ok "hello world from lumina") (Except.error "model crashed")
        (Except.ok ())
      = (Except.error ⟨500, "Failed to generate embeddings: model crashed"⟩,
          ensure_collection ⟨[], [], []⟩ "t1") :=
  ((upload_C1 ⟨[], [], []⟩ "t1" "admin-1" "Guide.pdf" [7] (fun _ => "G")
      "doc-9" (fun _ => "p") "hello world from lumina"
      ["hello world from lumina"] (Except.error "model crashed")
      (Except.ok ()) (by decide) (by decide) (by decide) (by decide)
      (by decide) (by decide) (by decide)).1 "model crashed" rfl).1

/-- The response model of the `chat` endpoint.  The human-readable
`reasoning` string is elided (it is built with float `"%.1f"`
formatting and no claim concerns it). -/
structure ChatResponse where
  response : String
  sources : List SourceEntry
  session_id : String
deriving DecidableEq

/-- `search_results`: the caught `try/except` around
`qdrant_client.query_points` — a search failure degrades to `[]`. -/
def chat_search_results (search_res : Except String (List ScoredPoint)) :
    List ScoredPoint :=
  match search_res with
  | Except.error _ => []
  | Except.ok rs => rs

/-- The `chat` handler from `ai_chat_routes.py`.

Oracles: `embed_res` is `get_embedding(request.message)` (failure
raises 500 with the internal message in the detail), `search_res` the
Qdrant `query_points` outcome, `llm_res` the Groq chat-completion
outcome (failure raises the fixed 500 detail).  The session id is the
caller-resolved `request.session_id or uuid4()`.  The read-only history
query and the prompt assembly feed only the LLM oracle and are elided;
uuid/timestamp fields of stored turns are elided as process-generated.
Context and sources are the shared `chat_context`/`chat_sources`
definitions. -/
def chat (st : AppState) (company_id user_id session_id message : String)
    (embed_res : Except String (List ℚ))
    (search_res : Except String (List ScoredPoint))
    (llm_res : Except String String) :
    Except HTTPError ChatResponse × AppState :=
  match embed_res with
  | Except.error e =>
    (Except.error ⟨500, "Failed to generate embedding: " ++ e⟩, st)
  | Except.ok _ =>
    match llm_res with
    | Except.error _ =>
      (Except.error ⟨500, "Failed to generate AI response"⟩,
        ensure_collection st company_id)
    | Except.ok answer =>
      (Except.ok
        ⟨answer, chat_sources (chat_search_results search_res), session_id⟩,
        { ensure_collection st company_id with
          chat_messages :=
            (ensure_collection st company_id).chat_messages ++
              [⟨company_id, user_id, session_id, "user", message, []⟩,
               ⟨company_id, user_id, session_id, "assistant", answer,
                 (chat_sources (chat_search_results search_res)).map
                   SourceEntry.name⟩] })

/-- Claim C3 — Query-time search degradation.  A search failure is not
propagated: the handler proceeds with zero results, an empty context
and an empty source list, and still returns the chat response. -/
theorem chat_C3 (st : AppState) (company_id user_id session_id message : String)
    (qe : List ℚ) (e : String) (answer : String) :
    (chat st company_id user_id session_id message (Except.ok qe)
        (Except.error e) (Except.ok answer)).1
      = Except.ok ⟨answer, [], session_id⟩
    ∧ chat_search_results (Except.error e) = []
    ∧ chat_context (chat_search_results (Except.error e)) = ""
    ∧ chat_sources (chat_search_results (Except.error e)) = [] :=
  ⟨rfl, rfl, rfl, rfl⟩

/-- Claim C8 — Chat-transcript persistence atomicity.  With a successful
query embedding: an LLM failure surfaces the fixed generation error
and persists nothing; an LLM success appends exactly the user turn
followed by the assistant turn (with the cited source names attached
to the assistant turn) and returns the response. -/
theorem chat_C8 (st : AppState) (company_id user_id session_id message : String)
    (qe : List ℚ) (search_res : Except String (List ScoredPoint))
    (llm_res : Except String String) :
    (∀ e, llm_res = Except.error e →
      (chat st company_id user_id session_id message (Except.ok qe) search_res
          llm_res).1
        = Except.error ⟨500, "Failed to generate AI response"⟩
      ∧ (chat st company_id user_id session_id message (Except.ok qe)
          search_res llm_res).2.chat_messages = st.chat_messages)
    ∧ (∀ answer, llm_res = Except.ok answer →
      (chat st company_id user_id session_id message (Except.ok qe) search_res
          llm_res).2.chat_messages
        = st.chat_messages
          ++ [⟨company_id, user_id, session_id, "user", message, []⟩,
              ⟨company_id, user_id, session_id, "assistant", answer,
                (chat_sources (chat_search_results search_res)).map
                  SourceEntry.name⟩]
      ∧ (chat st company_id user_id session_id message (Except.ok qe)
          search_res llm_res).1
        = Except.ok ⟨answer, chat_sources (chat_search_results search_res),
            session_id⟩) := by
  constructor
  · intro e he
    subst he
    exact ⟨rfl, ensure_collection_chats st company_id⟩
  · intro answer ha
    subst ha
    constructor
    · show (ensure_collection st company_id).chat_messages ++ _ = _
      rw [ensure_collection_chats st company_id]
    · rfl

theorem chat_C8_witness :
    (chat ⟨[], [], []⟩ "t1" "u1" "s1" "hello" (Except.ok [1]) (Except.ok [])
        (Except.error "llm down")).1
      = Except.error ⟨500, "Failed to generate AI response"⟩
    ∧ (chat ⟨[], [], []⟩ "t1" "u1" "s1" "hello" (Except.ok [1]) (Except.ok [])
        (Except.error "llm down")).2.chat_messages = [] :=
  (chat_C8 ⟨[], [], []⟩ "t1" "u1" "s1" "hello" [1] (Except.ok [])
    (Except.error "llm down")).1 "llm down" rfl

/-- Claim C9, counterexample — the caller-visible detail of an
embedding-stage infrastructure failure depends on the internal
exception message: two runs differing only in that message produce
different details, refuting the claimed opacity. -/
theorem chat_C9_counterexample :
    (chat ⟨[], [], []⟩ "t1" "u1" "s1" "m" (Except.error "connection reset")
        (Except.ok []) (Except.ok "a")).1
      ≠ (chat ⟨[], [], []⟩ "t1" "u1" "s1" "m"
        (Except.error "tls handshake failed") (Except.ok []) (Except.ok "a")).1
    := by decide

/-- Claim C9, amended — LLM failures are surfaced opaquely (a fixed
detail independent of the internal message), but embedding failures
embed the internal exception message in the caller-visible detail. -/
theorem chat_C9_amended (st : AppState)
    (company_id user_id session_id message : String) :
    (∀ (qe : List ℚ) (search_res : Except String (List ScoredPoint))
        (e1 e2 : String),
      (chat st company_id user_id session_id message (Except.ok qe) search_res
          (Except.error e1)).1
        = (chat st company_id user_id session_id message (Except.ok qe)
            search_res (Except.error e2)).1)
    ∧ (∀ (e : String) (search_res : Except String (List ScoredPoint))
        (llm_res : Except String String),
      (chat st company_id user_id session_id message (Except.error e)
          search_res llm_res).1
        = Except.error ⟨500, "Failed to generate embedding: " ++ e⟩) :=
  ⟨fun _ _ _ _ => rfl, fun _ _ _ => rfl⟩

/-- The delete endpoint's success body. -/
structure DeleteResponse where
  message : String
  steps_completed : List String
deriving DecidableEq

/-- The Qdrant filtered delete: drop this document's points from the
tenant's collection. -/
def removeDocPoints (st : AppState) (cname document_id : String) : AppState :=
  { st with
    collections :=
      st.collections.map (fun c =>
        if c.name = cname then
          { c with
            points :=
              c.points.filter (fun p =>
                p.payload.document_id != document_id) }
        else c) }

/-- `delete_knowledge_document` from `ai_chat_routes.py`.  The Qdrant
delete is wrapped in `try/except` that only logs a warning
(`vdelete_res` is its outcome); the MongoDB `delete_one` then removes
the first matching record, and the fixed success body is returned
either way. -/
def delete_knowledge_document (st : AppState) (company_id document_id : String)
    (vdelete_res : Except String Unit) :
    Except HTTPError DeleteResponse × AppState :=
  match st.knowledge_documents.find? (fun d => d.id == document_id) with
  | none => (Except.error ⟨404, "Document not found"⟩, st)
  | some doc =>
    if doc.company_id ≠ company_id then
      (Except.error ⟨403, "You can only delete documents from your company"⟩,
        st)
    else
      match vdelete_res with
      | Except.ok _ =>
        let st1 := removeDocPoints st (get_collection_name company_id)
          document_id
        (Except.ok ⟨"Document deleted successfully",
            ["vectors_deleted", "metadata_deleted"]⟩,
          { st1 with
            knowledge_documents :=
              st1.knowledge_documents.eraseP (fun d => d.id == document_id) })
      | Except.error _ =>
        (Except.ok ⟨"Document deleted successfully",
            ["vectors_deleted", "metadata_deleted"]⟩,
          { st with
            knowledge_documents :=
              st.knowledge_documents.eraseP (fun d => d.id == document_id) })

/-- Claim C10 — the delete response masks a vector-delete failure: when
the record exists and belongs to the caller's tenant, the response is
the identical success body with
`steps_completed = ["vectors_deleted", "metadata_deleted"]` whether the
Qdrant point deletion succeeded or raised, and the metadata record is
removed in both cases. -/
theorem delete_C10 (st : AppState) (company_id document_id : String)
    (doc : KnowledgeDocument) (v1 v2 : Except String Unit)
    (hfind : st.knowledge_documents.find? (fun d => d.id == document_id)
      = some doc)
    (hown : doc.company_id = company_id) :
    (delete_knowledge_document st company_id document_id v1).1
      = Except.ok ⟨"Document deleted successfully",
          ["vectors_deleted", "metadata_deleted"]⟩
    ∧ (delete_knowledge_document st company_id document_id v1).1
      = (delete_knowledge_document st company_id document_id v2).1
    ∧ (delete_knowledge_document st company_id document_id
        v1).2.knowledge_documents
      = st.knowledge_documents.eraseP (fun d => d.id == document_id) := by
  have key : ∀ v : Except String Unit,
      (delete_knowledge_document st company_id document_id v).1
        = Except.ok ⟨"Document deleted successfully",
            ["vectors_deleted", "metadata_deleted"]⟩
      ∧ (delete_knowledge_document st company_id document_id
          v).2.knowledge_documents
        = st.knowledge_documents.eraseP (fun d => d.id == document_id) := by
    intro v
    unfold delete_knowledge_document
    rw [hfind]
    dsimp only
    rw [if_neg (not_ne_iff.mpr hown)]
    cases v with
    | ok u => exact ⟨rfl, rfl⟩
    | error e => exact ⟨rfl, rfl⟩
  exact ⟨(key v1).1, ((key v1).1).trans ((key v2).1).symm, (key v1).2⟩

def c10doc : KnowledgeDocument :=
  ⟨"doc-7", "t1", "Rules.pdf", "pdf", 4, "R", 2, "admin-1"⟩

def c10state : AppState :=
  ⟨[⟨"hr_knowledge_t1", 384,
      [⟨"p1", [], ⟨"doc-7", "Rules.pdf", 0, "rule text", "t1"⟩⟩]⟩],
    [c10doc], []⟩

theorem delete_C10_witness :
    (delete_knowledge_document c10state "t1" "doc-7"
        (Except.error "qdrant down")).1
      = Except.ok ⟨"Document deleted successfully",
          ["vectors_deleted", "metadata_deleted"]⟩
    ∧ (delete_knowledge_document c10state "t1" "doc-7"
        (Except.error "qdrant down")).1
      = (delete_knowledge_document c10state "t1" "doc-7" (Except.ok ())).1 :=
  ⟨(delete_C10 c10state "t1" "doc-7" c10doc (Except.error "qdrant down")
      (Except.ok ()) (by decide) (by decide)).1,
   (delete_C10 c10state "t1" "doc-7" c10doc (Except.error "qdrant down")
      (Except.ok ()) (by decide) (by decide)).2.1⟩

theorem chat_C3_witness :
    (chat ⟨[], [], []⟩ "t1" "u1" "s1" "question" (Except.ok [1])
        (Except.error "qdrant unreachable") (Except.ok "General answer")).1
      = Except.ok ⟨"General answer", [], "s1"⟩ :=
  (chat_C3 ⟨[], [], []⟩ "t1" "u1" "s1" "question" [1] "qdrant unreachable"
    "General answer").1

theorem chat_C9_amended_witness :
    (chat ⟨[], [], []⟩ "t1" "u1" "s1" "m" (Except.error "boom") (Except.ok [])
        (Except.ok "a")).1
      = Except.error ⟨500, "Failed to generate embedding: boom"⟩ :=
  (chat_C9_amended ⟨[], [], []⟩ "t1" "u1" "s1" "m").2 "boom" (Except.ok [])
    (Except.ok "a")
